import Mathlib

/-!
Shallow embedding of the missed-appointments backend (src/backend/index.js).

Modelling conventions:
* A calendar day is a `Nat` (day number); a time-of-day slot string such as
  "10:00" is a `Nat` (minutes after midnight).  The JS code decomposes a
  timestamp into its ISO date part and its "HH:MM" part and recomposes them
  with a template string; a `Timestamp` is therefore the pair of the two
  components, and `absMs` is its absolute position in milliseconds
  (each day has 1440 minutes, as in UTC JS Dates).
* The Mongo collections become lists.  `Appointment.findById` addresses an
  appointment by its position in the list; `Doctor.findOne {doctorId}` is
  `List.find?`; `doc.save()` writes the (possibly stale) in-memory document
  over the first document matching the key, which is `writeFirst`.
* In-place mutation of the first array element matched by `find` /
  `findIndex` is `updateFirst`.
* `await x.save()` can fail (StoreFailure); the booking endpoint takes one
  Bool per save site to model which saves succeed.
-/

namespace Missed

/-- Appointment lifecycle status (`status` field, default `Scheduled`). -/
inductive Status where
  | Scheduled
  | Rescheduled
  | Missed
  deriving DecidableEq, Repr

/-- A status is active when it is `Scheduled` or `Rescheduled`. -/
def Status.isActive : Status → Bool
  | .Scheduled => true
  | .Rescheduled => true
  | .Missed => false

/-- A timestamp decomposed as the JS code decomposes it: ISO date part
(a day number) and "HH:MM" part (minutes after midnight). -/
structure Timestamp where
  date : Nat
  time : Nat
  deriving DecidableEq, Repr

/-- Absolute time in milliseconds, matching JS `Date.getTime` arithmetic
(1440 minutes per day, 60000 ms per minute). -/
def Timestamp.absMs (t : Timestamp) : Int :=
  ((t.date * 1440 + t.time : Nat) : Int) * 60000

/-- `appointmentSchema`: patient data, doctor reference, timestamp, status. -/
structure Appointment where
  patientName : String
  patientEmail : String
  doctorId : String
  appointmentTime : Timestamp
  status : Status
  deriving DecidableEq, Repr

/-- One entry of `doctorSchema.schedule`: a date and its available slots. -/
structure DaySchedule where
  date : Nat
  availableSlots : List Nat
  deriving DecidableEq, Repr

/-- `doctorSchema`: unique `doctorId`, name, email, per-date schedule. -/
structure Doctor where
  doctorId : String
  name : String
  email : String
  schedule : List DaySchedule
  deriving DecidableEq, Repr

/-- The two Mongo collections. -/
structure State where
  appointments : List Appointment
  doctors : List Doctor
  deriving DecidableEq, Repr

/-- Replace the first element satisfying `p` by its image under `f`
(in-place mutation of the element found by `find`/`findIndex`). -/
def updateFirst (p : α → Bool) (f : α → α) : List α → List α
  | [] => []
  | x :: xs => if p x then f x :: xs else x :: updateFirst p f xs

/-- Overwrite the first element satisfying `p` with `v`
(`doc.save()` writing the in-memory document over the stored one). -/
def writeFirst (p : α → Bool) (v : α) (l : List α) : List α :=
  updateFirst p (fun _ => v) l

/-- 15 minutes in milliseconds (`gracePeriod` in `checkMissedAppointments`). -/
def gracePeriod : Int := 15 * 60 * 1000

/-- The Mongo query of `checkMissedAppointments` applied to one document:
status is Scheduled or Rescheduled, and
`appointmentTime <= now - gracePeriod`. -/
def isStale (now : Int) (a : Appointment) : Bool :=
  (a.status = Status.Scheduled ∨ a.status = Status.Rescheduled) ∧
    a.appointmentTime.absMs ≤ now - gracePeriod

/-- One sweep action on one appointment: the stale ones are marked Missed
and saved, the rest are untouched. -/
def sweepOne (now : Int) (a : Appointment) : Appointment :=
  if isStale now a then { a with status := Status.Missed } else a

/-- `checkMissedAppointments`: find the stale appointments and set each of
their statuses to Missed.  Doctors are never read or written. -/
def checkMissedAppointments (now : Int) (s : State) : State :=
  { s with appointments := s.appointments.map (sweepOne now) }

/-- Result of the `/update-slots/:doctorId` endpoint. -/
inductive UpdateResult where
  | DoctorNotFound
  | Ok
  deriving DecidableEq, Repr

/-- `PUT /update-slots/:doctorId`: find the doctor (404 if absent); find the
schedule entry for the date; push a new entry if none exists, otherwise
overwrite its `availableSlots` with `newSlots`; save the doctor. -/
def updateSlots (doctorId : String) (date : Nat) (newSlots : List Nat)
    (s : State) : UpdateResult × State :=
  match s.doctors.find? (fun d => decide (d.doctorId = doctorId)) with
  | none => (.DoctorNotFound, s)
  | some doctor =>
    let newDoctor :=
      if (doctor.schedule.find? (fun day => decide (day.date = date))).isSome then
        { doctor with schedule :=
            (updateFirst (fun day => decide (day.date = date))
              (fun day => { day with availableSlots := newSlots }) doctor.schedule) }
      else
        { doctor with schedule := doctor.schedule ++ [⟨date, newSlots⟩] }
    (.Ok, { s with doctors :=
        (writeFirst (fun d => decide (d.doctorId = doctorId)) newDoctor s.doctors) })

/-- Result of the `/book-appointment` endpoint. -/
inductive BookResult where
  | DoctorNotFound
  | SlotUnavailable
  | StoreFailure
  | Booked
  deriving DecidableEq, Repr

/-- Body of a `/book-appointment` request. -/
structure BookRequest where
  patientName : String
  patientEmail : String
  doctorId : String
  appointmentTime : Timestamp
  deriving DecidableEq, Repr

/-- The appointment document built by the booking endpoint
(status defaults to Scheduled). -/
def mkAppointment (r : BookRequest) : Appointment :=
  ⟨r.patientName, r.patientEmail, r.doctorId, r.appointmentTime, .Scheduled⟩

/-- The doctor document after the booked slot is filtered out of the
schedule entry for the appointment's date. -/
def removeSlot (date slotTime : Nat) (doctor : Doctor) : Doctor :=
  { doctor with schedule :=
      (updateFirst (fun day => decide (day.date = date))
        (fun day => { day with availableSlots :=
            (day.availableSlots.filter (fun slot => decide (slot ≠ slotTime))) })
        doctor.schedule) }

/-- `POST /book-appointment`: find the doctor (404); find the schedule entry
for the date and check the slot (400 Slot not available); save the new
appointment; filter the slot out of the schedule and save the doctor.
`apptSaveOk` / `doctorSaveOk` say whether the two `save()` calls succeed;
a failed save throws into the catch block with the state written so far. -/
def bookAppointment (r : BookRequest) (apptSaveOk doctorSaveOk : Bool)
    (s : State) : BookResult × State :=
  match s.doctors.find? (fun d => decide (d.doctorId = r.doctorId)) with
  | none => (.DoctorNotFound, s)
  | some doctor =>
    match doctor.schedule.find?
        (fun day => decide (day.date = r.appointmentTime.date)) with
    | none => (.SlotUnavailable, s)
    | some schedule =>
      if r.appointmentTime.time ∈ schedule.availableSlots then
        if apptSaveOk then
          let s1 := { s with appointments := s.appointments ++ [mkAppointment r] }
          if doctorSaveOk then
            (.Booked, { s1 with doctors :=
                (writeFirst (fun d => decide (d.doctorId = r.doctorId))
                  (removeSlot r.appointmentTime.date r.appointmentTime.time doctor)
                  s1.doctors) })
          else (.StoreFailure, s1)
        else (.StoreFailure, s)
      else (.SlotUnavailable, s)

/-- Result of the `/reschedule` endpoint (middleware included). -/
inductive RescheduleResult where
  | SlotAlreadyBooked
  | AppointmentNotFound
  | DoctorNotFound
  | SlotUnavailable
  | Success
  deriving DecidableEq, Repr

/-- Body of a `/reschedule` request: `doctorId` and `newSlot` are read by the
middleware, `appointmentId` and `newSlot` by the handler.  `appointmentId`
addresses the appointment by position. -/
structure RescheduleRequest where
  doctorId : String
  appointmentId : Nat
  newSlot : Timestamp
  deriving DecidableEq, Repr

/-- `preventDoubleBooking` middleware: `Appointment.findOne` on the request's
`doctorId` and the timestamp composed from `newSlot` — any status, the
rescheduled appointment itself included. -/
def preventDoubleBooking (r : RescheduleRequest) (s : State) : Bool :=
  (s.appointments.find? (fun a =>
      decide (a.doctorId = r.doctorId ∧ a.appointmentTime = r.newSlot))).isSome

/-- The `/reschedule` handler body: look up the appointment (404) and its
doctor (404); find the schedule entry for `newSlot.date` and check the slot
(400 Slot not available); set status to Rescheduled and the new time, save;
filter the new slot out of the schedule, save the doctor.  The old slot is
never put back. -/
def rescheduleHandler (r : RescheduleRequest) (s : State) :
    RescheduleResult × State :=
  match s.appointments.get? r.appointmentId with
  | none => (.AppointmentNotFound, s)
  | some appointment =>
    match s.doctors.find? (fun d => decide (d.doctorId = appointment.doctorId)) with
    | none => (.DoctorNotFound, s)
    | some doctor =>
      match doctor.schedule.find?
          (fun day => decide (day.date = r.newSlot.date)) with
      | none => (.SlotUnavailable, s)
      | some day =>
        if r.newSlot.time ∈ day.availableSlots then
          let newAppointment :=
            { appointment with status := Status.Rescheduled,
                               appointmentTime := r.newSlot }
          let s1 := { s with appointments :=
              (s.appointments.set r.appointmentId newAppointment) }
          (.Success, { s1 with doctors :=
              (writeFirst (fun d => decide (d.doctorId = appointment.doctorId))
                (removeSlot r.newSlot.date r.newSlot.time doctor) s1.doctors) })
        else (.SlotUnavailable, s)

/-- `POST /reschedule`: the middleware runs first and rejects with
400 Slot already booked before the handler reads any state. -/
def reschedule (r : RescheduleRequest) (s : State) : RescheduleResult × State :=
  if preventDoubleBooking r s then (.SlotAlreadyBooked, s)
  else rescheduleHandler r s

/-- Local state of one in-flight `/book-appointment` request.  The handler
has `await` points after the checks and between the two saves, so another
request can run in between; `doctor` is the snapshot read at the start. -/
inductive BookPhase where
  | start
  | toSaveAppt (doctor : Doctor)
  | toSaveDoctor (doctor : Doctor)
  | done (result : BookResult)
  deriving DecidableEq, Repr

/-- One atomic step of the booking handler: the read-and-check, the
appointment save, or the doctor save (which writes the snapshot taken at
read time, slot filtered out, over the stored document). -/
def bookStep (r : BookRequest) : BookPhase × State → BookPhase × State
  | (.start, s) =>
    match s.doctors.find? (fun d => decide (d.doctorId = r.doctorId)) with
    | none => (.done .DoctorNotFound, s)
    | some doctor =>
      match doctor.schedule.find?
          (fun day => decide (day.date = r.appointmentTime.date)) with
      | none => (.done .SlotUnavailable, s)
      | some schedule =>
        if r.appointmentTime.time ∈ schedule.availableSlots then
          (.toSaveAppt doctor, s)
        else (.done .SlotUnavailable, s)
  | (.toSaveAppt doctor, s) =>
    (.toSaveDoctor doctor,
      { s with appointments := s.appointments ++ [mkAppointment r] })
  | (.toSaveDoctor doctor, s) =>
    (.done .Booked, { s with doctors :=
        (writeFirst (fun d => decide (d.doctorId = r.doctorId))
          (removeSlot r.appointmentTime.date r.appointmentTime.time doctor)
          s.doctors) })
  | (.done result, s) => (.done result, s)

/-- Run two concurrent booking requests under an interleaving schedule:
`true` gives the next atomic step to request A, `false` to request B. -/
def runTwo (rA rB : BookRequest) : List Bool → BookPhase × BookPhase × State →
    BookPhase × BookPhase × State
  | [], st => st
  | true :: rest, (pA, pB, s) =>
    let (pA', s') := bookStep rA (pA, s)
    runTwo rA rB rest (pA', pB, s')
  | false :: rest, (pA, pB, s) =>
    let (pB', s') := bookStep rB (pB, s)
    runTwo rA rB rest (pA, pB', s')

/-- A time is occupied for a doctor when some active (Scheduled or
Rescheduled) appointment of that doctor sits at exactly that timestamp. -/
def Occupied (s : State) (doctorId : String) (t : Timestamp) : Prop :=
  ∃ a ∈ s.appointments, a.status.isActive ∧ a.doctorId = doctorId ∧
    a.appointmentTime = t

instance (s : State) (doctorId : String) (t : Timestamp) :
    Decidable (Occupied s doctorId t) :=
  List.decidableBEx _ s.appointments

/-- The cross-store invariant: every slot still listed as available is not
occupied by an active appointment of that doctor at that date and time. -/
def DisjointInv (s : State) : Prop :=
  ∀ d ∈ s.doctors, ∀ day ∈ d.schedule, ∀ t ∈ day.availableSlots,
    ¬ Occupied s d.doctorId ⟨day.date, t⟩

instance (s : State) : Decidable (DisjointInv s) :=
  List.decidableBAll _ s.doctors

/-- Well-formedness the Mongo schema enforces (`doctorId` unique) together
with the spec's one-DaySchedule-per-date invariant. -/
def WF (s : State) : Prop :=
  s.doctors.Pairwise (fun d₁ d₂ => d₁.doctorId ≠ d₂.doctorId) ∧
    ∀ d ∈ s.doctors, d.schedule.Pairwise (fun x y => x.date ≠ y.date)

instance (s : State) : Decidable (WF s) := by
  unfold WF; infer_instance

/-- Total number of available slots over a doctor's whole schedule. -/
def Doctor.totalSlots (d : Doctor) : Nat :=
  (d.schedule.map (fun day => day.availableSlots.length)).sum

theorem updateFirst_of_forall_neg {p : α → Bool} {f : α → α} {l : List α}
    (h : ∀ x ∈ l, ¬ p x = true) : updateFirst p f l = l := by
  induction l with
  | nil => rfl
  | cons a as ih =>
    have ha : ¬ p a = true := h a (List.mem_cons_self _ _)
    simp only [updateFirst, if_neg ha]
    exact congrArg (a :: ·) (ih fun x hx => h x (List.mem_cons_of_mem _ hx))

theorem mem_updateFirst {p : α → Bool} {f : α → α} {l : List α} {y : α}
    (h : y ∈ updateFirst p f l) : y ∈ l ∨ ∃ x ∈ l, p x = true ∧ y = f x := by
  induction l with
  | nil => simp [updateFirst] at h
  | cons a as ih =>
    by_cases ha : p a = true
    · simp only [updateFirst, if_pos ha] at h
      rcases List.mem_cons.mp h with h | h
      · exact Or.inr ⟨a, List.mem_cons_self _ _, ha, h⟩
      · exact Or.inl (List.mem_cons_of_mem _ h)
    · simp only [updateFirst, if_neg ha] at h
      rcases List.mem_cons.mp h with h | h
      · exact Or.inl (h ▸ List.mem_cons_self _ _)
      · rcases ih h with h | ⟨x, hx, hpx, hy⟩
        · exact Or.inl (List.mem_cons_of_mem _ h)
        · exact Or.inr ⟨x, List.mem_cons_of_mem _ hx, hpx, hy⟩

theorem find?_decomp {p : α → Bool} {l : List α} {x : α}
    (h : l.find? p = some x) :
    ∃ l₁ l₂, l = l₁ ++ x :: l₂ ∧ (∀ z ∈ l₁, ¬ p z = true) ∧
      ∀ f, updateFirst p f l = l₁ ++ f x :: l₂ := by
  induction l with
  | nil => simp at h
  | cons a as ih =>
    by_cases ha : p a = true
    · rw [List.find?_cons_of_pos _ ha] at h
      obtain rfl : a = x := by injection h
      exact ⟨[], as, rfl, by simp, fun f => by simp [updateFirst, if_pos ha]⟩
    · rw [List.find?_cons_of_neg _ ha] at h
      obtain ⟨l₁, l₂, hl, hneg, hupd⟩ := ih h
      refine ⟨a :: l₁, l₂, by simp [hl], ?_, fun f => ?_⟩
      · intro z hz
        rcases List.mem_cons.mp hz with rfl | hz
        · exact ha
        · exact hneg z hz
      · simp [updateFirst, if_neg ha, hupd f]

theorem find?_append_of_forall_neg {p : α → Bool} {l₁ l₂ : List α} {v : α}
    (h₁ : ∀ z ∈ l₁, ¬ p z = true) (hv : p v = true) :
    (l₁ ++ v :: l₂).find? p = some v := by
  induction l₁ with
  | nil => simpa using List.find?_cons_of_pos _ hv
  | cons a as ih =>
    have ha : ¬ p a = true := h₁ a (List.mem_cons_self _ _)
    simpa [List.find?_cons_of_neg _ ha] using
      ih fun z hz => h₁ z (List.mem_cons_of_mem _ hz)

theorem find?_updateFirst_of_found {p : α → Bool} {f : α → α} {l : List α}
    {x : α} (h : l.find? p = some x) (hf : p (f x) = true) :
    (updateFirst p f l).find? p = some (f x) := by
  obtain ⟨l₁, l₂, _, hneg, hupd⟩ := find?_decomp h
  rw [hupd f]
  exact find?_append_of_forall_neg hneg hf

theorem mem_updateFirst_cases {p : α → Bool} {f : α → α} {l : List α} {x : α}
    {R : α → α → Prop} (hfind : l.find? p = some x) (hpair : l.Pairwise R)
    (hR : ∀ a b, R a b → p a = true → ¬ p b = true) :
    ∀ y ∈ updateFirst p f l, (y ∈ l ∧ ¬ p y = true) ∨ y = f x := by
  obtain ⟨l₁, l₂, hl, hneg, hupd⟩ := find?_decomp hfind
  have hpx : p x = true := List.find?_some hfind
  intro y hy
  rw [hupd f] at hy
  subst hl
  rcases List.mem_append.mp hy with hy | hy
  · exact Or.inl ⟨List.mem_append_left _ hy, hneg y hy⟩
  · rcases List.mem_cons.mp hy with rfl | hy
    · exact Or.inr rfl
    · refine Or.inl ⟨List.mem_append_right _ (List.mem_cons_of_mem _ hy), ?_⟩
      have hx : R x y :=
        (List.pairwise_cons.mp (List.pairwise_append.mp hpair).2.1).1 y hy
      exact hR x y hx hpx

theorem length_filter_ne_of_nodup {t : Nat} {l : List Nat}
    (hnd : l.Nodup) (ht : t ∈ l) :
    (l.filter (fun x => decide (x ≠ t))).length + 1 = l.length := by
  induction l with
  | nil => cases ht
  | cons a as ih =>
    rcases List.nodup_cons.mp hnd with ⟨hna, hnd'⟩
    by_cases hat : a = t
    · subst hat
      have hfe : as.filter (fun x => decide (x ≠ a)) = as :=
        List.filter_eq_self.mpr fun x hx => by
          simp only [decide_eq_true_eq]
          intro hxa
          exact hna (hxa ▸ hx)
      simp [List.filter_cons, hfe]
      intro x hx hxa
      exact hna (hxa ▸ hx)
    · have ht' : t ∈ as := by
        rcases List.mem_cons.mp ht with rfl | ht'
        · exact absurd rfl hat
        · exact ht'
      have := ih hnd' ht'
      simp only [List.filter_cons, decide_eq_true_eq]
      rw [if_pos hat]
      simp only [List.length_cons]
      omega

theorem removeSlot_doctorId (date slotTime : Nat) (doctor : Doctor) :
    (removeSlot date slotTime doctor).doctorId = doctor.doctorId := rfl

/-- Both the booking and the rescheduling success paths end by writing a
doctor whose day for `ts.date` lost the slot `ts.time`, next to an
appointment list whose members are either old appointments or occupy exactly
`(did, ts)`.  Any such final state keeps the disjointness invariant. -/
theorem disjoint_after_move {s : State} {did : String} {ts : Timestamp}
    {doctor : Doctor} {day : DaySchedule} {appts' : List Appointment}
    (hwf : WF s) (hinv : DisjointInv s)
    (hfind : s.doctors.find? (fun d => decide (d.doctorId = did)) = some doctor)
    (hday : doctor.schedule.find? (fun d => decide (d.date = ts.date)) = some day)
    (hmem : ∀ a ∈ appts', a ∈ s.appointments ∨
        (a.doctorId = did ∧ a.appointmentTime = ts)) :
    DisjointInv
      { appointments := appts',
        doctors := (writeFirst (fun d => decide (d.doctorId = did))
            (removeSlot ts.date ts.time doctor) s.doctors) } := by
  obtain ⟨hpairDoc, hpairSched⟩ := hwf
  have hdocmem : doctor ∈ s.doctors := List.mem_of_find?_eq_some hfind
  have hdocid : doctor.doctorId = did := by
    have := List.find?_some hfind
    simpa using this
  intro d' hd' day' hday' t ht hocc
  obtain ⟨a, ha, hact, haid, hatime⟩ := hocc
  simp only [writeFirst] at hd'
  have hRdoc : ∀ x y : Doctor, x.doctorId ≠ y.doctorId →
      decide (x.doctorId = did) = true → ¬ decide (y.doctorId = did) = true := by
    intro x y hxy h1 h2
    simp only [decide_eq_true_eq] at h1 h2
    exact hxy (h1.trans h2.symm)
  rcases mem_updateFirst_cases hfind hpairDoc hRdoc d' hd' with ⟨hd'mem, hd'nid⟩ | rfl
  · rcases hmem a ha with haold | ⟨haid2, _⟩
    · exact hinv d' hd'mem day' hday' t ht ⟨a, haold, hact, haid, hatime⟩
    · simp only [decide_eq_true_eq] at hd'nid
      exact hd'nid (haid ▸ haid2)
  · have hRdate : ∀ x y : DaySchedule, x.date ≠ y.date →
        decide (x.date = ts.date) = true → ¬ decide (y.date = ts.date) = true := by
      intro x y hxy h1 h2
      simp only [decide_eq_true_eq] at h1 h2
      exact hxy (h1.trans h2.symm)
    have hday'' : day' ∈ updateFirst (fun d => decide (d.date = ts.date))
        (fun d => { d with availableSlots :=
          (d.availableSlots.filter (fun slot => decide (slot ≠ ts.time))) })
        doctor.schedule := hday'
    have haid' : a.doctorId = doctor.doctorId := haid
    rcases mem_updateFirst_cases hday (hpairSched doctor hdocmem) hRdate
        day' hday'' with ⟨hdmem, hdnd⟩ | rfl
    · rcases hmem a ha with haold | ⟨_, hatime2⟩
      · exact hinv doctor hdocmem day' hdmem t ht ⟨a, haold, hact, haid', hatime⟩
      · simp only [decide_eq_true_eq] at hdnd
        have : ts.date = day'.date := congrArg Timestamp.date (hatime2.symm.trans hatime)
        exact hdnd this.symm
    · have htf := List.mem_filter.mp ht
      have htne : t ≠ ts.time := by simpa using htf.2
      rcases hmem a ha with haold | ⟨_, hatime2⟩
      · have hdaymem : day ∈ doctor.schedule := List.mem_of_find?_eq_some hday
        exact hinv doctor hdocmem day hdaymem t htf.1 ⟨a, haold, hact, haid', hatime⟩
      · have : ts.time = t := congrArg Timestamp.time (hatime2.symm.trans hatime)
        exact htne this.symm

/-- The sweep shrinks the set of active appointments and leaves the doctors
untouched, so it keeps the disjointness invariant. -/
theorem disjoint_after_sweep {s : State} (now : Int) (hinv : DisjointInv s) :
    DisjointInv (checkMissedAppointments now s) := by
  intro d hd day hday t ht hocc
  obtain ⟨a', ha', hact, haid, hatime⟩ := hocc
  simp only [checkMissedAppointments] at hd ha'
  obtain ⟨a, ha, rfl⟩ := List.mem_map.mp ha'
  have heq : sweepOne now a = a := by
    by_cases hst : isStale now a
    · exfalso
      have hms : (sweepOne now a).status = Status.Missed := by
        unfold sweepOne
        rw [if_pos hst]
      rw [hms] at hact
      simp [Status.isActive] at hact
    · unfold sweepOne
      exact if_neg hst
  rw [heq] at hact haid hatime
  exact hinv d hd day hday t ht ⟨a, ha, hact, haid, hatime⟩

/-- A successful booking run (both saves succeed) keeps the disjointness
invariant; the failing paths leave the state unchanged. -/
theorem disjoint_after_book {s : State} (r : BookRequest)
    (hwf : WF s) (hinv : DisjointInv s) :
    DisjointInv (bookAppointment r true true s).2 := by
  unfold bookAppointment
  cases hdoc : s.doctors.find? (fun d => decide (d.doctorId = r.doctorId)) with
  | none => exact hinv
  | some doctor =>
    dsimp only
    cases hday : doctor.schedule.find?
        (fun day => decide (day.date = r.appointmentTime.date)) with
    | none => exact hinv
    | some schedule =>
      dsimp only
      by_cases hslot : r.appointmentTime.time ∈ schedule.availableSlots
      · rw [if_pos hslot]
        refine disjoint_after_move hwf hinv hdoc hday ?_
        intro a ha
        rcases List.mem_append.mp ha with ha | ha
        · exact Or.inl ha
        · rcases List.mem_singleton.mp ha with rfl
          exact Or.inr ⟨rfl, rfl⟩
      · rw [if_neg hslot]
        exact hinv

/-- A reschedule run keeps the disjointness invariant; every failing path
leaves the state unchanged. -/
theorem disjoint_after_reschedule {s : State} (r : RescheduleRequest)
    (hwf : WF s) (hinv : DisjointInv s) :
    DisjointInv (reschedule r s).2 := by
  unfold reschedule
  by_cases hpd : preventDoubleBooking r s
  · rw [if_pos hpd]
    exact hinv
  · rw [if_neg hpd]
    unfold rescheduleHandler
    cases hget : s.appointments.get? r.appointmentId with
    | none => exact hinv
    | some appointment =>
      dsimp only
      cases hdoc : s.doctors.find?
          (fun d => decide (d.doctorId = appointment.doctorId)) with
      | none => exact hinv
      | some doctor =>
        dsimp only
        cases hday : doctor.schedule.find?
            (fun day => decide (day.date = r.newSlot.date)) with
        | none => exact hinv
        | some day =>
          dsimp only
          by_cases hslot : r.newSlot.time ∈ day.availableSlots
          · rw [if_pos hslot]
            refine disjoint_after_move hwf hinv hdoc hday ?_
            intro a ha
            rcases List.mem_or_eq_of_mem_set ha with ha | rfl
            · exact Or.inl ha
            · exact Or.inr ⟨rfl, rfl⟩
          · rw [if_neg hslot]
            exact hinv

/-- C1: the available slots of every doctor and date stay disjoint from the
times of active appointments, and every operation preserves this.  As
stated the claim is false: `updateSlots` overwrites a date's slot list
unconditionally (see `updateSlots_breaks_disjointness`).  Amended claim:
booking (with both saves succeeding), rescheduling and the sweep preserve
the disjointness invariant on well-formed states. -/
theorem disjointness_preserved_by_book_reschedule_sweep :
    (∀ (s : State) (r : BookRequest), WF s → DisjointInv s →
        DisjointInv (bookAppointment r true true s).2) ∧
    (∀ (s : State) (r : RescheduleRequest), WF s → DisjointInv s →
        DisjointInv (reschedule r s).2) ∧
    (∀ (s : State) (now : Int), DisjointInv s →
        DisjointInv (checkMissedAppointments now s)) :=
  ⟨fun _ r hwf hinv => disjoint_after_book r hwf hinv,
   fun _ r hwf hinv => disjoint_after_reschedule r hwf hinv,
   fun _ now hinv => disjoint_after_sweep now hinv⟩

/-- A doctor with an empty slot list for date 0 and an active appointment at
date 0, 10:00 (600 minutes): the invariant holds. -/
def c1State : State :=
  { appointments := [⟨"Alice", "a@x.com", "D1", ⟨0, 600⟩, .Scheduled⟩],
    doctors := [⟨"D1", "Doc", "d@x.com", [⟨0, []⟩]⟩] }

/-- C1 counterexample: `updateSlots` re-adds the very slot the active
appointment occupies, so the operation does not preserve disjointness. -/
theorem updateSlots_breaks_disjointness :
    DisjointInv c1State ∧
      (updateSlots "D1" 0 [600] c1State).1 = UpdateResult.Ok ∧
      ¬ DisjointInv (updateSlots "D1" 0 [600] c1State).2 := by
  refine ⟨by decide, rfl, ?_⟩
  intro h
  exact absurd h (by decide)

/-- A doctor with a free 10:00 slot on date 0 and no appointments. -/
def c1WitState : State :=
  { appointments := [],
    doctors := [⟨"D1", "Doc", "d@x.com", [⟨0, [600]⟩]⟩] }

/-- Witness for the amended C1 on a concrete booking. -/
theorem disjointness_preservation_witness :
    DisjointInv (bookAppointment ⟨"Alice", "a@x.com", "D1", ⟨0, 600⟩⟩
        true true c1WitState).2 :=
  disjointness_preserved_by_book_reschedule_sweep.1 c1WitState
    ⟨"Alice", "a@x.com", "D1", ⟨0, 600⟩⟩ (by decide) (by decide)

/-- C2: for a successful reschedule the spec claims the old slot is released
and the doctor's total slot count is unchanged.  The handler never calls a
release: it only filters the new slot out (see
`reschedule_does_not_release_old_slot`).  Amended claim: on a successful
reschedule the appointment moves to a genuinely new timestamp, the new slot
becomes unavailable, no slot becomes available that was not available
before (in particular the old slot is not released), and the doctor's total
available-slot count decreases by one. -/
theorem reschedule_consumes_slot_inventory
    {s : State} {r : RescheduleRequest} {appointment : Appointment}
    {doctor : Doctor} {day : DaySchedule}
    (hwf : WF s)
    (hpd : preventDoubleBooking r s = false)
    (hget : s.appointments.get? r.appointmentId = some appointment)
    (hrid : appointment.doctorId = r.doctorId)
    (hdoc : s.doctors.find?
        (fun d => decide (d.doctorId = appointment.doctorId)) = some doctor)
    (hday : doctor.schedule.find?
        (fun d => decide (d.date = r.newSlot.date)) = some day)
    (hslot : r.newSlot.time ∈ day.availableSlots)
    (hnodup : day.availableSlots.Nodup) :
    (reschedule r s).1 = RescheduleResult.Success ∧
      appointment.appointmentTime ≠ r.newSlot ∧
      ∃ doctor',
        (reschedule r s).2.doctors.find?
            (fun d => decide (d.doctorId = appointment.doctorId)) = some doctor' ∧
        (∀ day' ∈ doctor'.schedule, day'.date = r.newSlot.date →
            r.newSlot.time ∉ day'.availableSlots) ∧
        (∀ day' ∈ doctor'.schedule, ∃ day0 ∈ doctor.schedule,
            day0.date = day'.date ∧
            ∀ t ∈ day'.availableSlots, t ∈ day0.availableSlots) ∧
        doctor'.totalSlots + 1 = doctor.totalSlots := by
  have hnoconf : ∀ a ∈ s.appointments,
      ¬ (a.doctorId = r.doctorId ∧ a.appointmentTime = r.newSlot) := by
    intro a ha hconf
    have : (s.appointments.find? (fun a =>
        decide (a.doctorId = r.doctorId ∧ a.appointmentTime = r.newSlot))).isSome :=
      List.find?_isSome.mpr ⟨a, ha, by simpa using hconf⟩
    rw [preventDoubleBooking] at hpd
    rw [hpd] at this
    cases this
  have hne : appointment.appointmentTime ≠ r.newSlot := fun h =>
    hnoconf appointment (List.get?_mem hget) ⟨hrid, h⟩
  have hres : reschedule r s =
      (RescheduleResult.Success,
        { appointments := (s.appointments.set r.appointmentId
            { appointment with status := Status.Rescheduled,
                               appointmentTime := r.newSlot }),
          doctors := (writeFirst
              (fun d => decide (d.doctorId = appointment.doctorId))
              (removeSlot r.newSlot.date r.newSlot.time doctor) s.doctors) }) := by
    unfold reschedule
    rw [if_neg (by simp [hpd])]
    unfold rescheduleHandler
    rw [hget]
    dsimp only
    rw [hdoc]
    dsimp only
    rw [hday]
    dsimp only
    rw [if_pos hslot]
  have hdocmem : doctor ∈ s.doctors := List.mem_of_find?_eq_some hdoc
  have hpairSched := hwf.2 doctor hdocmem
  refine ⟨by rw [hres], hne,
    removeSlot r.newSlot.date r.newSlot.time doctor, ?_, ?_, ?_, ?_⟩
  · rw [hres]
    exact find?_updateFirst_of_found hdoc
      (by simpa using List.find?_some hdoc)
  · intro day' hday' hdate ht
    have hRdate : ∀ x y : DaySchedule, x.date ≠ y.date →
        decide (x.date = r.newSlot.date) = true →
        ¬ decide (y.date = r.newSlot.date) = true := by
      intro x y hxy h1 h2
      simp only [decide_eq_true_eq] at h1 h2
      exact hxy (h1.trans h2.symm)
    rcases mem_updateFirst_cases hday hpairSched hRdate day' hday'
        with ⟨_, hnd⟩ | rfl
    · exact hnd (by simpa using hdate)
    · have := (List.mem_filter.mp ht).2
      simp at this
  · intro day' hday'
    rcases mem_updateFirst (l := doctor.schedule) hday' with hmem | ⟨day0, h0, _, rfl⟩
    · exact ⟨day', hmem, rfl, fun t htt => htt⟩
    · exact ⟨day0, h0, rfl, fun t htt => (List.mem_filter.mp htt).1⟩
  · obtain ⟨m₁, m₂, hsch, _, hupd⟩ := find?_decomp hday
    have hlen := length_filter_ne_of_nodup hnodup hslot
    have hsch' : (removeSlot r.newSlot.date r.newSlot.time doctor).schedule =
        m₁ ++ { day with availableSlots :=
          (day.availableSlots.filter (fun slot => decide (slot ≠ r.newSlot.time))) }
          :: m₂ := hupd _
    simp only [Doctor.totalSlots, hsch', hsch, List.map_append, List.sum_append,
      List.map_cons, List.sum_cons]
    omega

/-- Doctor D1 has only the 11:00 slot (660) left on date 0; Alice's
appointment occupies 10:00 (600). -/
def c2State : State :=
  { appointments := [⟨"Alice", "a@x.com", "D1", ⟨0, 600⟩, .Scheduled⟩],
    doctors := [⟨"D1", "Doc", "d@x.com", [⟨0, [660]⟩]⟩] }

/-- The reschedule request moving Alice to 11:00 on the same date. -/
def c2Req : RescheduleRequest := ⟨"D1", 0, ⟨0, 660⟩⟩

/-- C2 counterexample: the reschedule succeeds but the old 10:00 slot is not
made available again — the schedule ends empty, so the doctor's total
available-slot count drops from 1 to 0 instead of staying unchanged. -/
theorem reschedule_does_not_release_old_slot :
    (reschedule c2Req c2State).1 = RescheduleResult.Success ∧
      (reschedule c2Req c2State).2.doctors =
        [⟨"D1", "Doc", "d@x.com", [⟨0, []⟩]⟩] := by
  exact ⟨rfl, rfl⟩

/-- Witness for the amended C2 at the concrete reschedule above. -/
theorem reschedule_consumes_slot_inventory_witness :
    (reschedule c2Req c2State).1 = RescheduleResult.Success ∧
      Timestamp.mk 0 600 ≠ Timestamp.mk 0 660 ∧
      ∃ doctor',
        (reschedule c2Req c2State).2.doctors.find?
            (fun d => decide (d.doctorId = "D1")) = some doctor' ∧
        (∀ day' ∈ doctor'.schedule, day'.date = 0 →
            660 ∉ day'.availableSlots) ∧
        (∀ day' ∈ doctor'.schedule, ∃ day0 ∈ [DaySchedule.mk 0 [660]],
            day0.date = day'.date ∧
            ∀ t ∈ day'.availableSlots, t ∈ day0.availableSlots) ∧
        doctor'.totalSlots + 1 = Doctor.totalSlots ⟨"D1", "Doc", "d@x.com", [⟨0, [660]⟩]⟩ :=
  @reschedule_consumes_slot_inventory c2State c2Req
    ⟨"Alice", "a@x.com", "D1", ⟨0, 600⟩, .Scheduled⟩
    ⟨"D1", "Doc", "d@x.com", [⟨0, [660]⟩]⟩ ⟨0, [660]⟩
    (by decide) rfl rfl rfl rfl rfl (by decide) (by decide)

/-- C3: Missed is claimed to be terminal, with any transition attempt
rejected as InvalidTransition.  The code has no such guard (see
`missed_appointment_reschedules`): no InvalidTransition error exists
anywhere.  Amended claim: the sweep never touches a Missed appointment, but
the reschedule endpoint checks only the new-timestamp conflict, so a Missed
appointment whose requested new slot is free and conflict-free is moved to
Rescheduled. -/
theorem missed_is_not_guarded :
    (∀ (now : Int) (a : Appointment), a.status = Status.Missed →
        sweepOne now a = a) ∧
    (∀ (s : State) (r : RescheduleRequest) (appointment : Appointment)
        (doctor : Doctor) (day : DaySchedule),
      preventDoubleBooking r s = false →
      s.appointments.get? r.appointmentId = some appointment →
      appointment.status = Status.Missed →
      s.doctors.find?
          (fun d => decide (d.doctorId = appointment.doctorId)) = some doctor →
      doctor.schedule.find?
          (fun d => decide (d.date = r.newSlot.date)) = some day →
      r.newSlot.time ∈ day.availableSlots →
      (reschedule r s).1 = RescheduleResult.Success ∧
        (reschedule r s).2.appointments.get? r.appointmentId =
          some { appointment with status := Status.Rescheduled,
                                  appointmentTime := r.newSlot }) := by
  constructor
  · intro now a h
    unfold sweepOne
    rw [if_neg]
    simp [isStale, h]
  · intro s r appointment doctor day hpd hget _ hdoc hday hslot
    have hres : reschedule r s =
        (RescheduleResult.Success,
          { appointments := (s.appointments.set r.appointmentId
              { appointment with status := Status.Rescheduled,
                                 appointmentTime := r.newSlot }),
            doctors := (writeFirst
                (fun d => decide (d.doctorId = appointment.doctorId))
                (removeSlot r.newSlot.date r.newSlot.time doctor) s.doctors) }) := by
      unfold reschedule
      rw [if_neg (by simp [hpd])]
      unfold rescheduleHandler
      rw [hget]
      dsimp only
      rw [hdoc]
      dsimp only
      rw [hday]
      dsimp only
      rw [if_pos hslot]
    have hlt : r.appointmentId < s.appointments.length := by
      rcases List.get?_eq_some.mp hget with ⟨h, _⟩
      exact h
    refine ⟨by rw [hres], ?_⟩
    rw [hres]
    simp only [List.get?_eq_getElem?]
    exact List.getElem?_set_self (by simpa using hlt)

/-- Alice's appointment is already Missed; D1 still lists 11:00 (660) as
available on date 0. -/
def c3State : State :=
  { appointments := [⟨"Alice", "a@x.com", "D1", ⟨0, 600⟩, .Missed⟩],
    doctors := [⟨"D1", "Doc", "d@x.com", [⟨0, [660]⟩]⟩] }

/-- The reschedule request moving the Missed appointment to 11:00. -/
def c3Req : RescheduleRequest := ⟨"D1", 0, ⟨0, 660⟩⟩

/-- C3 counterexample: rescheduling a Missed appointment succeeds and sets
its status to Rescheduled — nothing rejects the transition and the
appointment does not stay Missed. -/
theorem missed_appointment_reschedules :
    (reschedule c3Req c3State).1 = RescheduleResult.Success ∧
      (reschedule c3Req c3State).2.appointments =
        [⟨"Alice", "a@x.com", "D1", ⟨0, 660⟩, .Rescheduled⟩] :=
  ⟨rfl, rfl⟩

/-- Witness for the amended C3: a concrete Missed appointment survives a
sweep tick untouched, and a concrete conflict-free reschedule of it
succeeds. -/
theorem missed_is_not_guarded_witness :
    sweepOne 0 ⟨"Alice", "a@x.com", "D1", ⟨0, 600⟩, .Missed⟩ =
        ⟨"Alice", "a@x.com", "D1", ⟨0, 600⟩, .Missed⟩ ∧
      (reschedule c3Req c3State).1 = RescheduleResult.Success :=
  ⟨missed_is_not_guarded.1 0 ⟨"Alice", "a@x.com", "D1", ⟨0, 600⟩, .Missed⟩ rfl,
   (missed_is_not_guarded.2 c3State c3Req
      ⟨"Alice", "a@x.com", "D1", ⟨0, 600⟩, .Missed⟩
      ⟨"D1", "Doc", "d@x.com", [⟨0, [660]⟩]⟩ ⟨0, [660]⟩
      rfl rfl rfl rfl rfl (by decide)).1⟩

/-- C4: the claim promises exactly one success for two concurrent bookings
of the same slot.  The handler does an unsynchronized read-modify-write
across its await points, so an interleaving exists in which both callers
succeed (see `concurrent_double_booking`).  Amended claim: when the two
bookings run sequentially — one handler completes before the other starts —
exactly one succeeds: the second one returns SlotUnavailable and changes
nothing. -/
theorem sequential_double_booking_excluded
    {r : BookRequest} {s s' : State}
    (h : bookAppointment r true true s = (BookResult.Booked, s')) :
    bookAppointment r true true s' = (BookResult.SlotUnavailable, s') := by
  unfold bookAppointment at h
  cases hdoc : s.doctors.find? (fun d => decide (d.doctorId = r.doctorId)) with
  | none => rw [hdoc] at h; cases h
  | some doctor =>
    rw [hdoc] at h
    dsimp only at h
    cases hday : doctor.schedule.find?
        (fun day => decide (day.date = r.appointmentTime.date)) with
    | none => rw [hday] at h; cases h
    | some schedule =>
      rw [hday] at h
      dsimp only at h
      by_cases hslot : r.appointmentTime.time ∈ schedule.availableSlots
      · rw [if_pos hslot] at h
        injection h with h1 h2
        subst h2
        have hid : (removeSlot r.appointmentTime.date r.appointmentTime.time
            doctor).doctorId = doctor.doctorId := rfl
        have hps := List.find?_some hdoc
        have hp : decide ((removeSlot r.appointmentTime.date
            r.appointmentTime.time doctor).doctorId = r.doctorId) = true := by
          rw [hid]
          exact hps
        have hdoc' : (writeFirst (fun d => decide (d.doctorId = r.doctorId))
            (removeSlot r.appointmentTime.date r.appointmentTime.time doctor)
            s.doctors).find? (fun d => decide (d.doctorId = r.doctorId)) =
            some (removeSlot r.appointmentTime.date r.appointmentTime.time
              doctor) := by
          unfold writeFirst
          exact find?_updateFirst_of_found hdoc hp
        have hday' : (removeSlot r.appointmentTime.date r.appointmentTime.time
            doctor).schedule.find?
              (fun day => decide (day.date = r.appointmentTime.date)) =
            some { schedule with availableSlots :=
              (schedule.availableSlots.filter
                (fun slot => decide (slot ≠ r.appointmentTime.time))) } := by
          unfold removeSlot
          have hds := List.find?_some hday
          exact find?_updateFirst_of_found hday hds
        unfold bookAppointment
        rw [hdoc']
        dsimp only
        rw [hday']
        dsimp only
        rw [if_neg]
        intro hmem
        have := (List.mem_filter.mp hmem).2
        simp at this
      · rw [if_neg hslot] at h
        cases h

/-- One free 10:00 slot (600) for D1 and no appointments yet. -/
def c4State : State :=
  { appointments := [],
    doctors := [⟨"D1", "Doc", "d@x.com", [⟨0, [600]⟩]⟩] }

/-- Alice's and Bob's identical booking requests for (D1, date 0, 10:00). -/
def c4ReqA : BookRequest := ⟨"Alice", "a@x.com", "D1", ⟨0, 600⟩⟩

/-- Bob's request for the same slot. -/
def c4ReqB : BookRequest := ⟨"Bob", "b@x.com", "D1", ⟨0, 600⟩⟩

/-- C4 counterexample: under the interleaving read-A, read-B, save-A,
save-A-doctor, save-B, save-B-doctor both handlers pass the availability
check on the same snapshot and both succeed, creating two appointments for
the same (doctorId, time) — not exactly one success. -/
theorem concurrent_double_booking :
    (runTwo c4ReqA c4ReqB [true, false, true, true, false, false]
        (.start, .start, c4State)).1 = BookPhase.done BookResult.Booked ∧
      (runTwo c4ReqA c4ReqB [true, false, true, true, false, false]
        (.start, .start, c4State)).2.1 = BookPhase.done BookResult.Booked ∧
      (runTwo c4ReqA c4ReqB [true, false, true, true, false, false]
        (.start, .start, c4State)).2.2.appointments =
        [mkAppointment c4ReqA, mkAppointment c4ReqB] :=
  ⟨rfl, rfl, rfl⟩

/-- Witness for the amended C4: after Alice books the only 10:00 slot,
Bob's identical sequential request is refused with no state change. -/
theorem sequential_double_booking_excluded_witness :
    bookAppointment c4ReqA true true (bookAppointment c4ReqA true true c4State).2 =
      (BookResult.SlotUnavailable, (bookAppointment c4ReqA true true c4State).2) :=
  @sequential_double_booking_excluded c4ReqA c4State
    (bookAppointment c4ReqA true true c4State).2 rfl

/-- C5: the claim describes reserve-then-create with a compensating release.
The handler actually creates the appointment first and removes the slot
afterwards, and no release call exists; a doctor-save failure therefore
strands a created appointment (see `failed_book_leaves_orphan_appointment`).
Amended claim: after any failed Book the slot availability is identical to
the pre-call state (the doctor store is only written on the success path),
and the appointment store is unchanged too except in one case: when the
appointment save succeeded and the doctor save failed, the created
appointment remains as an orphan. -/
theorem failed_book_keeps_availability
    {r : BookRequest} {f1 f2 : Bool} {s : State}
    (h : (bookAppointment r f1 f2 s).1 ≠ BookResult.Booked) :
    (bookAppointment r f1 f2 s).2.doctors = s.doctors ∧
      ((bookAppointment r f1 f2 s).2.appointments = s.appointments ∨
        (f1 = true ∧ f2 = false ∧
          (bookAppointment r f1 f2 s).2.appointments =
            s.appointments ++ [mkAppointment r])) := by
  unfold bookAppointment at h ⊢
  cases hdoc : s.doctors.find? (fun d => decide (d.doctorId = r.doctorId)) with
  | none => exact ⟨rfl, Or.inl rfl⟩
  | some doctor =>
    rw [hdoc] at h
    dsimp only at h ⊢
    cases hday : doctor.schedule.find?
        (fun day => decide (day.date = r.appointmentTime.date)) with
    | none => exact ⟨rfl, Or.inl rfl⟩
    | some schedule =>
      rw [hday] at h
      dsimp only at h ⊢
      by_cases hslot : r.appointmentTime.time ∈ schedule.availableSlots
      · rw [if_pos hslot] at h ⊢
        cases f1 with
        | false => exact ⟨rfl, Or.inl rfl⟩
        | true =>
          simp only [if_pos rfl] at h ⊢
          cases f2 with
          | false => exact ⟨rfl, Or.inr ⟨by simp, by simp, rfl⟩⟩
          | true => exact absurd rfl h
      · rw [if_neg hslot] at h ⊢
        exact ⟨rfl, Or.inl rfl⟩

/-- One free 10:00 slot for D1, no appointments. -/
def c5State : State :=
  { appointments := [],
    doctors := [⟨"D1", "Doc", "d@x.com", [⟨0, [600]⟩]⟩] }

/-- Alice's booking request used for the store-failure scenarios. -/
def c5Req : BookRequest := ⟨"Alice", "a@x.com", "D1", ⟨0, 600⟩⟩

/-- C5 counterexample: when the doctor save fails after the appointment
save succeeded, the failed Book does not return to the pre-call state — the
created appointment remains (an orphaned ledger entry), and no compensating
release ever ran because the slot had not been removed yet. -/
theorem failed_book_leaves_orphan_appointment :
    (bookAppointment c5Req true false c5State).1 = BookResult.StoreFailure ∧
      (bookAppointment c5Req true false c5State).2 ≠ c5State ∧
      (bookAppointment c5Req true false c5State).2.appointments =
        c5State.appointments ++ [mkAppointment c5Req] :=
  ⟨rfl, by decide, rfl⟩

/-- Witness for the amended C5 at the concrete doctor-save failure. -/
theorem failed_book_keeps_availability_witness :
    (bookAppointment c5Req true false c5State).2.doctors = c5State.doctors ∧
      ((bookAppointment c5Req true false c5State).2.appointments =
          c5State.appointments ∨
        (true = true ∧ false = false ∧
          (bookAppointment c5Req true false c5State).2.appointments =
            c5State.appointments ++ [mkAppointment c5Req])) :=
  failed_book_keeps_availability (by decide)

/-- C6: one sweep tick with the 15-minute grace marks Missed exactly the
Scheduled/Rescheduled appointments with appointmentTime ≤ now − 15 min,
leaves everything else unchanged, turns a Scheduled appointment 16 minutes
past due into Missed, and leaves one only 10 minutes past due untouched. -/
theorem sweep_marks_exactly_stale (now : Int) (s : State) :
    (∀ i, (checkMissedAppointments now s).appointments.get? i =
        (s.appointments.get? i).map (sweepOne now)) ∧
    ∀ a : Appointment,
      ((sweepOne now a).status = Status.Missed ↔
        ((a.status = Status.Scheduled ∨ a.status = Status.Rescheduled) ∧
            a.appointmentTime.absMs ≤ now - gracePeriod) ∨
          a.status = Status.Missed) ∧
      (¬ ((a.status = Status.Scheduled ∨ a.status = Status.Rescheduled) ∧
          a.appointmentTime.absMs ≤ now - gracePeriod) → sweepOne now a = a) ∧
      (a.status = Status.Scheduled →
        a.appointmentTime.absMs = now - 16 * 60000 →
        (sweepOne now a).status = Status.Missed) ∧
      (a.appointmentTime.absMs = now - 10 * 60000 → sweepOne now a = a) := by
  constructor
  · intro i
    simp [checkMissedAppointments, List.get?_eq_getElem?, List.getElem?_map]
  · intro a
    have hbool : isStale now a = true ↔
        ((a.status = Status.Scheduled ∨ a.status = Status.Rescheduled) ∧
          a.appointmentTime.absMs ≤ now - gracePeriod) := by
      simp [isStale]
    have hunch : ¬ ((a.status = Status.Scheduled ∨
        a.status = Status.Rescheduled) ∧
        a.appointmentTime.absMs ≤ now - gracePeriod) → sweepOne now a = a := by
      intro hc
      unfold sweepOne
      exact if_neg fun hb => hc (hbool.mp hb)
    refine ⟨?_, hunch, ?_, ?_⟩
    · by_cases hc : (a.status = Status.Scheduled ∨
          a.status = Status.Rescheduled) ∧
          a.appointmentTime.absMs ≤ now - gracePeriod
      · unfold sweepOne
        rw [if_pos (hbool.mpr hc)]
        simpa using Or.inl hc
      · rw [hunch hc]
        constructor
        · exact fun h => Or.inr h
        · rintro (h | h)
          · exact absurd h hc
          · exact h
    · intro hs habs
      unfold sweepOne
      rw [if_pos (hbool.mpr ⟨Or.inl hs, by rw [habs]; unfold gracePeriod; omega⟩)]
    · intro habs
      refine hunch fun ⟨_, hle⟩ => ?_
      rw [habs] at hle
      unfold gracePeriod at hle
      omega

/-- Witness for C6: with now = 36 000 000 ms, a Scheduled appointment 16
minutes past due (584 minutes into day 0) becomes Missed, and one 10
minutes past due (590 minutes) is unchanged. -/
theorem sweep_marks_exactly_stale_witness :
    (sweepOne 36000000 ⟨"Alice", "a@x.com", "D1", ⟨0, 584⟩, .Scheduled⟩).status =
        Status.Missed ∧
      sweepOne 36000000 ⟨"Bob", "b@x.com", "D1", ⟨0, 590⟩, .Scheduled⟩ =
        ⟨"Bob", "b@x.com", "D1", ⟨0, 590⟩, .Scheduled⟩ :=
  ⟨((sweep_marks_exactly_stale 36000000 ⟨[], []⟩).2
      ⟨"Alice", "a@x.com", "D1", ⟨0, 584⟩, .Scheduled⟩).2.2.1 rfl (by decide),
   ((sweep_marks_exactly_stale 36000000 ⟨[], []⟩).2
      ⟨"Bob", "b@x.com", "D1", ⟨0, 590⟩, .Scheduled⟩).2.2.2 (by decide)⟩

/-- C7: a Book request whose doctor has no schedule entry for the requested
date, or whose time-of-day is not among that date's available slots, returns
Slot not available and changes nothing — the handler returns before the
appointment is created or the schedule touched. -/
theorem unavailable_slot_book_rejected
    {r : BookRequest} {s : State} {doctor : Doctor} (f1 f2 : Bool)
    (hdoc : s.doctors.find?
        (fun d => decide (d.doctorId = r.doctorId)) = some doctor)
    (hbad : doctor.schedule.find?
        (fun day => decide (day.date = r.appointmentTime.date)) = none ∨
      ∀ day, doctor.schedule.find?
          (fun day => decide (day.date = r.appointmentTime.date)) = some day →
        r.appointmentTime.time ∉ day.availableSlots) :
    bookAppointment r f1 f2 s = (BookResult.SlotUnavailable, s) := by
  unfold bookAppointment
  rw [hdoc]
  dsimp only
  cases hday : doctor.schedule.find?
      (fun day => decide (day.date = r.appointmentTime.date)) with
  | none => rfl
  | some day =>
    dsimp only
    rcases hbad with hnone | hnotin
    · rw [hnone] at hday
      cases hday
    · rw [if_neg (hnotin day hday)]

/-- D1's only schedule entry is date 0; Bob asks for date 1. -/
def c7State : State :=
  { appointments := [],
    doctors := [⟨"D1", "Doc", "d@x.com", [⟨0, [660]⟩]⟩] }

/-- Booking request for a date with no schedule entry. -/
def c7Req : BookRequest := ⟨"Bob", "b@x.com", "D1", ⟨1, 600⟩⟩

/-- Witness for C7 at a concrete no-schedule-entry request. -/
theorem unavailable_slot_book_rejected_witness :
    bookAppointment c7Req true true c7State =
      (BookResult.SlotUnavailable, c7State) :=
  unavailable_slot_book_rejected true true rfl (Or.inl rfl)

/-- The middleware rejects whenever some stored appointment of the request's
doctor sits exactly at the composed new timestamp; the handler never runs. -/
theorem reschedule_rejects_conflict
    {r : RescheduleRequest} {s : State} {a : Appointment}
    (ha : a ∈ s.appointments) (hid : a.doctorId = r.doctorId)
    (ht : a.appointmentTime = r.newSlot) :
    reschedule r s = (RescheduleResult.SlotAlreadyBooked, s) := by
  unfold reschedule
  rw [if_pos]
  unfold preventDoubleBooking
  exact List.find?_isSome.mpr ⟨a, ha, by simp [hid, ht]⟩

/-- C8: if another appointment of the same doctor already sits at the exact
new timestamp, the reschedule fails with Slot already booked and the state
is returned untouched — the middleware rejects before the handler reads or
writes anything. -/
theorem reschedule_conflict_with_other_rejected
    {r : RescheduleRequest} {s : State} {j : Nat} {a : Appointment}
    (hj : s.appointments.get? j = some a) (_hne : j ≠ r.appointmentId)
    (hid : a.doctorId = r.doctorId) (ht : a.appointmentTime = r.newSlot) :
    reschedule r s = (RescheduleResult.SlotAlreadyBooked, s) :=
  reschedule_rejects_conflict (List.get?_mem hj) hid ht

/-- Alice holds 10:00 (600) and Bob holds 11:00 (660) with D1. -/
def c8State : State :=
  { appointments :=
      [⟨"Alice", "a@x.com", "D1", ⟨0, 600⟩, .Scheduled⟩,
       ⟨"Bob", "b@x.com", "D1", ⟨0, 660⟩, .Scheduled⟩],
    doctors := [⟨"D1", "Doc", "d@x.com", [⟨0, [660]⟩]⟩] }

/-- Witness for C8: moving Alice onto Bob's exact timestamp is refused. -/
theorem reschedule_conflict_with_other_rejected_witness :
    reschedule ⟨"D1", 0, ⟨0, 660⟩⟩ c8State =
      (RescheduleResult.SlotAlreadyBooked, c8State) :=
  @reschedule_conflict_with_other_rejected ⟨"D1", 0, ⟨0, 660⟩⟩ c8State 1
    ⟨"Bob", "b@x.com", "D1", ⟨0, 660⟩, .Scheduled⟩ rfl (by decide) rfl rfl

/-- C10: the middleware matches on doctorId and timestamp only — no status
filter and no exclusion of the appointment being rescheduled — so any
stored appointment at the new timestamp, Missed or the appointment itself
included, makes the request fail with Slot already booked before the
handler touches any state. -/
theorem reschedule_conflict_any_status_rejected
    {r : RescheduleRequest} {s : State} {a : Appointment}
    (ha : a ∈ s.appointments) (hid : a.doctorId = r.doctorId)
    (ht : a.appointmentTime = r.newSlot) :
    reschedule r s = (RescheduleResult.SlotAlreadyBooked, s) :=
  reschedule_rejects_conflict ha hid ht

/-- A single Missed appointment at (D1, date 0, 10:00). -/
def c10State : State :=
  { appointments := [⟨"Alice", "a@x.com", "D1", ⟨0, 600⟩, .Missed⟩],
    doctors := [⟨"D1", "Doc", "d@x.com", [⟨0, [600]⟩]⟩] }

/-- Witness for C10: rescheduling the Missed appointment onto its own
timestamp is refused by the middleware because the appointment itself
matches the conflict query. -/
theorem reschedule_conflict_any_status_rejected_witness :
    reschedule ⟨"D1", 0, ⟨0, 600⟩⟩ c10State =
      (RescheduleResult.SlotAlreadyBooked, c10State) :=
  @reschedule_conflict_any_status_rejected ⟨"D1", 0, ⟨0, 600⟩⟩ c10State
    ⟨"Alice", "a@x.com", "D1", ⟨0, 600⟩, .Missed⟩ (by decide) rfl rfl

/-- C9: a sweep tick rewrites only appointment statuses: the doctor list —
and with it every availability set — is untouched, and every non-status
appointment field survives; in particular a slot whose appointment became
Missed is not returned to availability. -/
theorem sweep_touches_only_statuses (now : Int) (s : State) :
    (checkMissedAppointments now s).doctors = s.doctors ∧
      (checkMissedAppointments now s).appointments =
        s.appointments.map (sweepOne now) ∧
      ∀ a : Appointment,
        (sweepOne now a).patientName = a.patientName ∧
        (sweepOne now a).patientEmail = a.patientEmail ∧
        (sweepOne now a).doctorId = a.doctorId ∧
        (sweepOne now a).appointmentTime = a.appointmentTime := by
  refine ⟨rfl, rfl, ?_⟩
  intro a
  unfold sweepOne
  by_cases h : isStale now a
  · rw [if_pos h]
    exact ⟨rfl, rfl, rfl, rfl⟩
  · rw [if_neg h]
    exact ⟨rfl, rfl, rfl, rfl⟩

end Missed
